import Mathlib

/-
  A shallow embedding of the targ command-line argument parsing library
  (src/targ.hpp and src/unix.hpp) together with theorems about its
  behaviour.  Tokens and C++ std::string values are modelled as lists of
  characters; the mutable value slot of each argument descriptor is
  threaded explicitly; a thrown targ::ParsingError is modelled by the
  error branch of Except, carrying the exception message.
-/

namespace Targ

/-- Tokens and C++ std::string values are modelled as lists of characters. -/
abbrev Str := List Char

/-- The null character, returned by std::string operator[] at an index equal
to the size of the string (C++11 and later). -/
def nullChar : Char := Char.ofNat 0

/-- Models C++ indexing str[i] on std::string under the precondition
i less than or equal to str.size(): in range it is the stored character, at
i equal to the size it is the null character. -/
def strAt (s : Str) (i : Nat) : Char := s.getD i nullChar

/-- The message of the ParsingError thrown by Option parseArg in the scalar
branch of targ.hpp: the text reads, with ln spliced in,
Option ln expects one argument! -/
def expectsOneMsg (ln : Str) : Str :=
  ['O', 'p', 't', 'i', 'o', 'n', ' '] ++ ln ++
    [' ', 'e', 'x', 'p', 'e', 'c', 't', 's', ' ', 'o', 'n', 'e', ' ',
     'a', 'r', 'g', 'u', 'm', 'e', 'n', 't', '!']

/-- The three tag struct types of targ.hpp: any_tag, option_tag,
positional_tag. -/
inductive TagTy where
  | anyTag : TagTy
  | optionTag : TagTy
  | positionalTag : TagTy
deriving DecidableEq, BEq

/-- The value slot of a descriptor, by the four compile-time branches of
Option parseArg on the declared type T: bool (switch), a vector type, an
optional type, and the default scalar branch.  The scalar conversion
static_cast of T from a char pointer is modelled as the identity on
strings, matching the Option of std::string instantiations of demo.cpp. -/
inductive Value where
  | boolVal : Bool → Value
  | strVal : Str → Value
  | vecVal : List Str → Value
  | optVal : Option Str → Value
deriving DecidableEq

/-- An argument descriptor registered in AbstractParser args: either an
Option of targ.hpp, carrying shortName, longName and its value slot, or a
PositionalArgument, carrying name and its value slot.  A constructor of
Option that is given no short (or no long) name leaves that member
default-initialized, so both members are always present here. -/
inductive Descriptor where
  | optionArg : Char → Str → Value → Descriptor
  | positionalArg : Str → Value → Descriptor
deriving DecidableEq

/-- The runtime type of the expression typeid(arg->tag) in
UnixParser shouldTest.  AbstractArgument declares the member as
const any_tag tag; the subclasses re-declare a SHADOWING member of their
own (again of declared type any_tag, so the initializers option_tag() and
positional_tag() are sliced to any_tag).  shouldTest receives the argument
as a pointer to AbstractArgument and therefore reads the base-class
member, whose static type is any_tag; any_tag is not polymorphic, so
typeid yields the static type.  Hence typeid(arg->tag) is typeid(any_tag)
for every descriptor. -/
def tagTypeid (_d : Descriptor) : TagTy := TagTy.anyTag

deriving instance DecidableEq for Except

/-- The values of the members shortOptPrefix and longOptPrefix that
Option doesStrMatchOption actually reads.  The member access is
parser->shortOptPrefix through a pointer of static type AbstractParser,
and data members are resolved statically, so the AbstractParser members
are read; those are const std::string members with no initializer,
default-constructed to the empty string.  The same-named members of
UnixParser with values "-" and "--" merely shadow them and are never read
by doesStrMatchOption. -/
def readShortOptPre : Str := []

/-- Long counterpart of readShortOptPre: the AbstractParser member
longOptPrefix that doesStrMatchOption reads, the empty string. -/
def readLongOptPre : Str := []

/-- Option doesStrMatchOption of targ.hpp, parameterized by the prefix
strings it reads (spre, lpre), the short and long names of the option,
and the candidate token:
str.starts_with(spre) and str[spre.length()] == shortName, or
str.starts_with(lpre) and str.substr(lpre.length()) == longName. -/
def doesStrMatchOption (spre lpre : Str) (shortName : Char) (longName : Str)
    (str : Str) : Bool :=
  (spre.isPrefixOf str && (strAt str spre.length == shortName))
    || (lpre.isPrefixOf str && (str.drop lpre.length == longName))

/-- The virtual parseArg methods of targ.hpp, dispatched on the dynamic
type of the descriptor.  PositionalArgument parseArg returns 0
unconditionally.  Option parseArg, on a window whose first token is tok
and whose remaining tokens are rest (so argc is rest.length + 1): if the
token matches, the bool branch sets the value true and returns 1; the
vector and optional constexpr branches are empty and fall through to
return 0; the scalar branch stores the next token and returns 2 when
argc is greater than 1, and otherwise throws ParsingError.  On a
non-matching token it returns 0.  The result pairs the consumed count
with the (possibly updated) descriptor. -/
def parseArg (spre lpre : Str) (d : Descriptor) (tok : Str)
    (rest : List Str) : Except Str (Nat × Descriptor) :=
  match d with
  | .positionalArg nm v => .ok (0, .positionalArg nm v)
  | .optionArg sn ln v =>
    if doesStrMatchOption spre lpre sn ln tok then
      match v with
      | .boolVal _ => .ok (1, .optionArg sn ln (.boolVal true))
      | .vecVal w => .ok (0, .optionArg sn ln (.vecVal w))
      | .optVal w => .ok (0, .optionArg sn ln (.optVal w))
      | .strVal _ =>
        match rest with
        | t :: _ => .ok (2, .optionArg sn ln (.strVal t))
        | [] => .error (expectsOneMsg ln)
    else .ok (0, .optionArg sn ln v)

/-- The inner for loop of targ parse over parser.args: descriptors are
tried in registration order; a descriptor for which shouldTest is false
is skipped; the first parseArg call returning a nonzero count stops the
scan (the break), leaving all later descriptors untouched; a thrown
ParsingError propagates.  Returns the consumed count (0 when every tried
descriptor returned 0) together with the updated descriptor list. -/
def scanArgs (spre lpre : Str) (should : Descriptor → Bool) (tok : Str)
    (rest : List Str) : List Descriptor → Except Str (Nat × List Descriptor)
  | [] => .ok (0, [])
  | d :: ds =>
    if should d then
      match parseArg spre lpre d tok rest with
      | .error e => .error e
      | .ok (0, d1) =>
        match scanArgs spre lpre should tok rest ds with
        | .error e => .error e
        | .ok (n, ds1) => .ok (n, d1 :: ds1)
      | .ok (n + 1, d1) => .ok (n + 1, d1 :: ds)
    else
      match scanArgs spre lpre should tok rest ds with
      | .error e => .error e
      | .ok (n, ds1) => .ok (n, d :: ds1)

/-- Outcome of the outer parse loop: ok carries the final convention mode
and descriptors when the index reaches argc; err carries the message of a
propagated ParsingError; spin reports that the supplied fuel ran out at
token index i with the loop still running, which is how this embedding
makes the non-terminating executions of the C++ loop observable. -/
inductive ParseOut where
  | ok : Bool → List Descriptor → ParseOut
  | err : Str → ParseOut
  | spin : Bool → List Descriptor → Nat → ParseOut
deriving DecidableEq

/-- The outer for loop of targ parse, parameterized by the convention
hooks (the virtual metaparser, returning the consumed flag together with
the updated mode state, and the virtual shouldTest) and by the prefix
strings the descriptors read.  At each iteration with i below argc the
current token is offered to metaparser first; if consumed, i advances by
one; otherwise the descriptors are scanned and i advances by the consumed
count, which leaves i unchanged when every descriptor returns 0.  The
loop exits only when i reaches argc.  fuel bounds the number of
iterations so the definition is total; the C++ loop has no such bound. -/
def parseLoop (spre lpre : Str) (mp : Bool → Str → Bool × Bool)
    (should : Bool → Descriptor → Bool) :
    Nat → Bool → List Descriptor → List Str → Nat → ParseOut
  | 0, mode, args, argv, i =>
    if i < argv.length then .spin mode args i else .ok mode args
  | fuel + 1, mode, args, argv, i =>
    if i < argv.length then
      let tok := argv.getD i []
      let mres := mp mode tok
      if mres.1 then
        parseLoop spre lpre mp should fuel mres.2 args argv (i + 1)
      else
        match scanArgs spre lpre (should mres.2) tok (argv.drop (i + 1)) args with
        | .error e => ParseOut.err e
        | .ok (n, args1) =>
          parseLoop spre lpre mp should fuel mres.2 args1 argv (i + n)
    else ParseOut.ok mode args

/-- The top-level targ parse function: it stores argv[0] in
parser.prgmName and then runs the token loop from index 0; the program
name token is not skipped.  The result pairs prgmName with the loop
outcome. -/
def parse (spre lpre : Str) (mp : Bool → Str → Bool × Bool)
    (should : Bool → Descriptor → Bool) (fuel : Nat) (mode : Bool)
    (args : List Descriptor) (argv : List Str) : Str × ParseOut :=
  (argv.getD 0 [], parseLoop spre lpre mp should fuel mode args argv 0)

/-- UnixParser metaparser of unix.hpp: the token consisting of two dashes
sets parseOptions to false and is consumed; every other token is not
consumed and leaves the mode unchanged. -/
def unixMetaparser (parseOptions : Bool) (arg : Str) : Bool × Bool :=
  if arg = ['-', '-'] then (true, false) else (false, parseOptions)

/-- UnixParser shouldTest of unix.hpp: it returns false when parseOptions
is false and typeid(arg->tag) equals typeid(positional_tag), and true
otherwise.  See tagTypeid for the value that typeid(arg->tag) takes. -/
def unixShouldTest (parseOptions : Bool) (d : Descriptor) : Bool :=
  if !parseOptions && (tagTypeid d == TagTy.positionalTag) then false
  else true

/-- The token prog, a stand-in program name. -/
def progL : Str := ['p', 'r', 'o', 'g']

/-- The token verbose, the long name of the verbose switch of demo.cpp. -/
def verbL : Str := ['v', 'e', 'r', 'b', 'o', 's', 'e']

/-- The token out, used as a long name of a scalar option. -/
def outL : Str := ['o', 'u', 't']

/-- The token a.out, the caller-supplied default of the output option of
demo.cpp. -/
def aoutL : Str := ['a', '.', 'o', 'u', 't']

/-- A scalar Option of std::string with short name o, long name out and
default value a.out, as in demo.cpp. -/
def scalarO : Descriptor := .optionArg 'o' outL (.strVal aoutL)

/-- A Switch (Option of bool) with short name v and long name verbose,
value false, as in demo.cpp. -/
def switchV : Descriptor := .optionArg 'v' verbL (.boolVal false)

/-- A Switch with short name S and default-constructed empty long name,
as the assemblyOut switch of demo.cpp. -/
def demoSwitchS : Descriptor := .optionArg 'S' [] (.boolVal false)

end Targ

namespace Targ

/-- Indexing an append at the length of the left part reads the head of
the right part. -/
theorem getD_append_self (l m : Str) (c : Char) :
    (l ++ m).getD l.length c = m.getD 0 c := by
  induction l with
  | nil => rfl
  | cons a l ih => simpa using ih

/-- getD at index zero is headD. -/
theorem getD_zero_headD (m : Str) (c : Char) : m.getD 0 c = m.headD c := by
  cases m <;> rfl

/-- An in-range getD is a member of the list. -/
theorem getD_mem_of_lt {α : Type} (l : List α) (i : Nat) (z : α)
    (h : i < l.length) : l.getD i z ∈ l := by
  induction l generalizing i with
  | nil => simp at h
  | cons a l ih =>
    cases i with
    | zero => simp
    | succ j =>
      rw [List.getD_cons_succ]
      exact List.mem_cons_of_mem a (ih j (by simpa using h))

/-- An Option descriptor whose flag does not match the current token
returns 0 from parseArg and leaves its value slot unchanged. -/
theorem parseArg_of_not_match (spre lpre : Str) (sn : Char) (ln : Str)
    (v : Value) (tok : Str) (rest : List Str)
    (h : doesStrMatchOption spre lpre sn ln tok = false) :
    parseArg spre lpre (.optionArg sn ln v) tok rest =
      .ok (0, .optionArg sn ln v) := by
  simp [parseArg, h]

/-- A descriptor whose parseArg returns 0 without updating itself on the
current window is returned unchanged, at its position, by the descriptor
scan. -/
theorem scanArgs_preserves (spre lpre : Str) (should : Descriptor → Bool)
    (tok : Str) (rest : List Str) :
    ∀ (args : List Descriptor) (k : Nat) (d : Descriptor),
      args.get? k = some d →
      parseArg spre lpre d tok rest = .ok (0, d) →
      ∀ (n : Nat) (args1 : List Descriptor),
        scanArgs spre lpre should tok rest args = .ok (n, args1) →
        args1.get? k = some d := by
  intro args
  induction args with
  | nil =>
    intro k d hk
    simp at hk
  | cons d0 ds ih =>
    intro k d hk hz n args1 hs
    by_cases hs0 : should d0 = true
    · simp only [scanArgs, if_pos hs0] at hs
      split at hs
      · exact absurd hs (by simp)
      · rename_i d1 heq
        split at hs
        · exact absurd hs (by simp)
        · rename_i n2 ds1 hsc
          injection hs with hs
          injection hs with hn hl
          subst hn
          subst hl
          cases k with
          | zero =>
            simp only [List.get?] at hk
            injection hk with hk
            subst hk
            rw [hz] at heq
            injection heq with heq
            injection heq with heq1 heq2
            simp [List.get?, heq2]
          | succ k2 =>
            simp only [List.get?] at hk ⊢
            exact ih k2 d hk hz n2 ds1 hsc
      · rename_i m d1 heq
        injection hs with hs
        injection hs with hn hl
        subst hn
        subst hl
        cases k with
        | zero =>
          simp only [List.get?] at hk
          injection hk with hk
          subst hk
          rw [hz] at heq
          injection heq with heq
          injection heq with heq1 heq2
          exact absurd heq1 (by simp)
        | succ k2 =>
          simpa [List.get?] using hk
    · simp only [scanArgs, if_neg hs0] at hs
      split at hs
      · exact absurd hs (by simp)
      · rename_i n2 ds1 hsc
        injection hs with hs
        injection hs with hn hl
        subst hn
        subst hl
        cases k with
        | zero =>
          simpa [List.get?] using hk
        | succ k2 =>
          simp only [List.get?] at hk ⊢
          exact ih k2 d hk hz n2 ds1 hsc

/-- A descriptor whose parseArg returns 0 unchanged on every window of the
input is returned unchanged, at its position, by any completed run of the
parse loop. -/
theorem parseLoop_preserves (spre lpre : Str) (mp : Bool → Str → Bool × Bool)
    (should : Bool → Descriptor → Bool) (argv : List Str) (d : Descriptor)
    (hz : ∀ tok ∈ argv, ∀ rest, parseArg spre lpre d tok rest = .ok (0, d)) :
    ∀ (fuel : Nat) (mode : Bool) (args : List Descriptor) (i k : Nat),
      args.get? k = some d →
      ∀ (m : Bool) (args1 : List Descriptor),
        parseLoop spre lpre mp should fuel mode args argv i = .ok m args1 →
        args1.get? k = some d := by
  intro fuel
  induction fuel with
  | zero =>
    intro mode args i k hk m args1 hp
    by_cases hi : i < argv.length
    · simp only [parseLoop, if_pos hi] at hp
      exact absurd hp (by simp)
    · simp only [parseLoop, if_neg hi] at hp
      injection hp with h1 h2
      subst h2
      exact hk
  | succ fl ih =>
    intro mode args i k hk m args1 hp
    by_cases hi : i < argv.length
    · simp only [parseLoop, if_pos hi] at hp
      by_cases hc : (mp mode (argv.getD i [])).1 = true
      · rw [if_pos hc] at hp
        exact ih _ _ _ k hk m args1 hp
      · rw [if_neg hc] at hp
        split at hp
        · exact absurd hp (by simp)
        · rename_i n args2 hsc
          have hmem : argv.getD i [] ∈ argv := getD_mem_of_lt argv i [] hi
          have hk2 : args2.get? k = some d :=
            scanArgs_preserves spre lpre (should (mp mode (argv.getD i [])).2)
              (argv.getD i []) (argv.drop (i + 1)) args k d hk
              (hz _ hmem _) n args2 hsc
          exact ih _ _ _ k hk2 m args1 hp
    · simp only [parseLoop, if_neg hi] at hp
      injection hp with h1 h2
      subst h2
      exact hk

/-- Sanity example: a token matching nothing leaves a positional
descriptor unchanged. -/
example : parseArg [] [] (.positionalArg outL (.strVal [])) progL [] =
    .ok (0, .positionalArg outL (.strVal [])) := by decide

example : doesStrMatchOption ['-'] ['-', '-'] 'v' verbL ['-', 'v'] = true := by
  decide

example : doesStrMatchOption readShortOptPre readLongOptPre 'v' verbL
    ['-', 'v'] = false := by decide

example :
    parseLoop readShortOptPre readLongOptPre unixMetaparser unixShouldTest 2
      true [switchV] [['-', '-'], verbL] 0 =
    ParseOut.ok false [.optionArg 'v' verbL (.boolVal true)] := by decide

/-- Claim C2 is false as stated: with the short prefix one dash and the
long prefix two dashes, a short option named x recognizes the token -xy,
although that token spells neither the short prefix followed by x nor the
long prefix followed by the long name. -/
theorem option_match_not_exact_spelling :
    doesStrMatchOption ['-'] ['-', '-'] 'x' ['l', 'a', 'n', 'g']
        ['-', 'x', 'y'] = true
      ∧ ['-', 'x', 'y'] ≠ ['-'] ++ ['x']
      ∧ ['-', 'x', 'y'] ≠ ['-', '-'] ++ ['l', 'a', 'n', 'g'] := by decide

/-- Claim C2 (amended): an Option recognizes a token iff the token starts
with the short-option prefix it reads and the character immediately after
that prefix (the null character when the token is exactly the prefix)
equals the short name, regardless of any later characters, or the token
is exactly the long prefix it reads followed by the long name. -/
theorem doesStrMatchOption_iff (spre lpre : Str) (sn : Char) (ln str : Str) :
    doesStrMatchOption spre lpre sn ln str = true ↔
      ((∃ rest, str = spre ++ rest ∧ rest.headD nullChar = sn) ∨
        str = lpre ++ ln) := by
  unfold doesStrMatchOption strAt
  simp only [Bool.or_eq_true, Bool.and_eq_true, List.isPrefixOf_iff_prefix,
    beq_iff_eq]
  constructor
  · rintro (⟨⟨rest, hpre⟩, hat⟩ | ⟨⟨t, hpre⟩, hdrop⟩)
    · subst hpre
      left
      refine ⟨rest, rfl, ?_⟩
      rw [getD_append_self, getD_zero_headD] at hat
      exact hat
    · subst hpre
      right
      rw [List.drop_left] at hdrop
      rw [hdrop]
  · rintro (⟨rest, hstr, hat⟩ | hstr)
    · subst hstr
      left
      refine ⟨⟨rest, rfl⟩, ?_⟩
      rw [getD_append_self, getD_zero_headD]
      exact hat
    · subst hstr
      right
      exact ⟨⟨ln, rfl⟩, List.drop_left _ _⟩

/-- Claim C5 fails on the code: the vector branch of Option parseArg is an
empty compile-time branch that falls through to return 0, so a Repeated
option whose flag matches the current token consumes nothing and stores
nothing, although following tokens are available.  The descriptor class
documentation in targ.hpp states that for any vector type zero or more
arguments are parsed after the option. -/
theorem repeated_option_consumes_nothing :
    doesStrMatchOption ['-'] ['-', '-'] 'm' ['m', 'u', 'l', 't']
        ['-', 'm'] = true
      ∧ parseArg ['-'] ['-', '-']
          (.optionArg 'm' ['m', 'u', 'l', 't'] (.vecVal []))
          ['-', 'm'] [['a'], ['b']] =
        .ok (0, .optionArg 'm' ['m', 'u', 'l', 't'] (.vecVal [])) := by decide

/-- Claim C6 fails on the code: PositionalArgument parseArg is the stub
body return 0, so a positional descriptor never claims the current token;
it returns 0 on every window it is offered. -/
theorem positional_parseArg_returns_zero (spre lpre : Str) (nm : Str)
    (v : Value) (tok : Str) (rest : List Str) :
    parseArg spre lpre (.positionalArg nm v) tok rest =
      .ok (0, .positionalArg nm v) := rfl

/-- Claim C4 fails on the code: after the end-of-options marker has set
parseOptions to false, UnixParser shouldTest still returns true for an
Option descriptor, because the condition tests typeid of the sliced
non-polymorphic base member tag against positional_tag; consequently an
Option descriptor still matches a later token, as the full run on the
marker followed by the token verbose shows. -/
theorem shouldTest_true_for_option_after_marker :
    unixShouldTest false switchV = true
      ∧ parseLoop readShortOptPre readLongOptPre unixMetaparser unixShouldTest
          2 true [switchV] [['-', '-'], verbL] 0 =
        ParseOut.ok false [.optionArg 'v' verbL (.boolVal true)] := by decide

/-- Claim C1 fails on the code: from a loop state whose current token the
metaparser does not consume (leaving the mode unchanged) and on which the
descriptor scan returns 0 without changing any descriptor, the parse loop
makes no forward progress and never terminates: for every fuel it is
still running at the same token index, and it never produces a result or
an explicit error. -/
theorem parse_stuck_on_unrecognized (spre lpre : Str)
    (mp : Bool → Str → Bool × Bool) (should : Bool → Descriptor → Bool)
    (mode : Bool) (args : List Descriptor) (argv : List Str) (i : Nat)
    (hi : i < argv.length)
    (hc : (mp mode (argv.getD i [])).1 = false)
    (hm : (mp mode (argv.getD i [])).2 = mode)
    (hs : scanArgs spre lpre (should mode) (argv.getD i [])
        (argv.drop (i + 1)) args = .ok (0, args)) :
    ∀ fuel, parseLoop spre lpre mp should fuel mode args argv i =
      ParseOut.spin mode args i := by
  intro fuel
  induction fuel with
  | zero => simp [parseLoop, hi]
  | succ fl ih =>
    simp only [parseLoop, if_pos hi, hc, hm, hs, Bool.false_eq_true,
      if_false]
    simpa using ih

/-- Witness for parse_stuck_on_unrecognized: the demo parser offered only
its own program name token spins at index 0 with fuel 5. -/
theorem parse_stuck_on_unrecognized_witness :
    parseLoop readShortOptPre readLongOptPre unixMetaparser unixShouldTest 5
      true [demoSwitchS] [progL] 0 = ParseOut.spin true [demoSwitchS] 0 :=
  parse_stuck_on_unrecognized readShortOptPre readLongOptPre unixMetaparser
    unixShouldTest true [demoSwitchS] [progL] 0 (by decide) (by decide)
    (by decide) (by decide) 5

/-- Claim C7: declaration order is match precedence.  If every earlier
descriptor is either filtered out by shouldTest or returns 0 unchanged,
and descriptor d is eligible and returns a nonzero count, then the scan
applies the result of d, and every descriptor registered after d is left
untouched whatever its own parseArg would do: the outcome does not depend
on the later descriptors at all. -/
theorem first_match_wins (spre lpre : Str) (should : Descriptor → Bool)
    (tok : Str) (rest : List Str) (xs ys : List Descriptor)
    (d d1 : Descriptor) (n : Nat)
    (hxs : ∀ x ∈ xs, should x = false ∨
      parseArg spre lpre x tok rest = .ok (0, x))
    (hd : should d = true)
    (hpa : parseArg spre lpre d tok rest = .ok (n + 1, d1)) :
    scanArgs spre lpre should tok rest (xs ++ d :: ys) =
      .ok (n + 1, xs ++ d1 :: ys) := by
  induction xs with
  | nil => simp only [List.nil_append, scanArgs, if_pos hd, hpa]
  | cons x xs ih =>
    have htail : scanArgs spre lpre should tok rest (xs ++ d :: ys) =
        .ok (n + 1, xs ++ d1 :: ys) :=
      ih (fun y hy => hxs y (List.mem_cons_of_mem x hy))
    rcases hxs x (List.mem_cons_self x _) with hx | hx
    · have hx2 : ¬ (should x = true) := by simp [hx]
      simp only [List.cons_append, scanArgs, if_neg hx2, List.append_eq,
        htail]
    · by_cases hsx : should x = true
      · simp only [List.cons_append, scanArgs, if_pos hsx, hx,
          List.append_eq, htail]
      · simp only [List.cons_append, scanArgs, if_neg hsx, List.append_eq,
          htail]

/-- Witness for first_match_wins: with two switches of the same short
name a registered after a non-matching switch z, the token -a is applied
to the earlier a switch and the later one stays false. -/
theorem first_match_wins_instance :
    scanArgs ['-'] ['-', '-'] (fun _ => true) ['-', 'a'] []
        ([Descriptor.optionArg 'z' [] (.boolVal false)] ++
          (Descriptor.optionArg 'a' [] (.boolVal false)) ::
            [Descriptor.optionArg 'a' [] (.boolVal false)]) =
      .ok (0 + 1, [Descriptor.optionArg 'z' [] (.boolVal false)] ++
        (Descriptor.optionArg 'a' [] (.boolVal true)) ::
          [Descriptor.optionArg 'a' [] (.boolVal false)]) :=
  first_match_wins ['-'] ['-', '-'] (fun _ => true) ['-', 'a'] []
    [Descriptor.optionArg 'z' [] (.boolVal false)]
    [Descriptor.optionArg 'a' [] (.boolVal false)]
    (Descriptor.optionArg 'a' [] (.boolVal false))
    (Descriptor.optionArg 'a' [] (.boolVal true)) 0
    (by decide) (by decide) (by decide)

/-- Claim C8: a token the metaparser consumes advances the loop by
exactly one position and the descriptor list is passed on unchanged: no
descriptor parseArg is invoked on that token and no value slot is mutated
by consuming it. -/
theorem metaparsed_token_skips_descriptors (spre lpre : Str)
    (mp : Bool → Str → Bool × Bool) (should : Bool → Descriptor → Bool)
    (fuel : Nat) (mode : Bool) (args : List Descriptor) (argv : List Str)
    (i : Nat) (hi : i < argv.length)
    (hc : (mp mode (argv.getD i [])).1 = true) :
    parseLoop spre lpre mp should (fuel + 1) mode args argv i =
      parseLoop spre lpre mp should fuel (mp mode (argv.getD i [])).2 args
        argv (i + 1) := by
  simp only [parseLoop, if_pos hi, hc, if_true]

/-- Witness for metaparsed_token_skips_descriptors: the end-of-options
marker as the current token of a UnixParser run. -/
theorem metaparsed_token_skips_descriptors_instance :
    parseLoop readShortOptPre readLongOptPre unixMetaparser unixShouldTest 1
        true [switchV] [['-', '-']] 0 =
      parseLoop readShortOptPre readLongOptPre unixMetaparser unixShouldTest 0
        false [switchV] [['-', '-']] 1 :=
  metaparsed_token_skips_descriptors readShortOptPre readLongOptPre
    unixMetaparser unixShouldTest 0 true [switchV] [['-', '-']] 0
    (by decide) (by decide)

/-- Claim C10: parse stores the first token of argv as prgmName and the
token loop starts at index 0, so that same first token is offered to the
metaparser and, when not consumed there, to descriptor matching, exactly
like any other token; it is not implicitly skipped. -/
theorem parse_offers_first_token (spre lpre : Str)
    (mp : Bool → Str → Bool × Bool) (should : Bool → Descriptor → Bool)
    (fuel : Nat) (mode : Bool) (args : List Descriptor) (t : Str)
    (rest : List Str) :
    parse spre lpre mp should (fuel + 1) mode args (t :: rest) =
      (t,
        if (mp mode t).1 then
          parseLoop spre lpre mp should fuel (mp mode t).2 args (t :: rest) 1
        else
          match scanArgs spre lpre (should (mp mode t).2) t rest args with
          | .error e => ParseOut.err e
          | .ok (n, args1) =>
            parseLoop spre lpre mp should fuel (mp mode t).2 args1
              (t :: rest) n) := by
  have h0 : (0 : Nat) < (t :: rest).length := Nat.succ_pos _
  simp only [parse, parseLoop, if_pos h0, List.getD_cons_zero,
    List.drop_succ_cons, List.drop_zero, Nat.zero_add]

/-- Claim C3: a scalar Option (neither bool nor vector nor optional)
whose flag matches the current token stores the following token into its
value slot and returns 2 when a following token exists; when the matched
flag is the last remaining token parseArg throws the ParsingError with
the expects-one-argument message; and on an input none of whose tokens
match the flag, any completed parse leaves the caller-supplied default in
the slot. -/
theorem scalar_option_spec (spre lpre : Str) (sn : Char) (ln v0 tok t : Str)
    (rest : List Str) (mp : Bool → Str → Bool × Bool)
    (should : Bool → Descriptor → Bool) (fuel : Nat) (mode m : Bool)
    (args args1 : List Descriptor) (argv : List Str) (k : Nat) :
    (doesStrMatchOption spre lpre sn ln tok = true →
        parseArg spre lpre (.optionArg sn ln (.strVal v0)) tok (t :: rest) =
          .ok (2, .optionArg sn ln (.strVal t)))
      ∧ (doesStrMatchOption spre lpre sn ln tok = true →
          parseArg spre lpre (.optionArg sn ln (.strVal v0)) tok [] =
            .error (expectsOneMsg ln))
      ∧ ((∀ u ∈ argv, doesStrMatchOption spre lpre sn ln u = false) →
          args.get? k = some (.optionArg sn ln (.strVal v0)) →
          parseLoop spre lpre mp should fuel mode args argv 0 = .ok m args1 →
          args1.get? k = some (.optionArg sn ln (.strVal v0))) := by
  refine ⟨?_, ?_, ?_⟩
  · intro h
    simp [parseArg, h]
  · intro h
    simp [parseArg, h]
  · intro hno hk hp
    exact parseLoop_preserves spre lpre mp should argv
      (.optionArg sn ln (.strVal v0))
      (fun u hu rest2 =>
        parseArg_of_not_match spre lpre sn ln (.strVal v0) u rest2 (hno u hu))
      fuel mode args 0 k hk m args1 hp

/-- Witness for scalar_option_spec, instantiated at the output option of
demo.cpp: a matching flag followed by a value stores the value and
consumes two tokens; a matching flag at the end of the stream raises the
error; and a completed parse of an input without the flag leaves the
descriptor untouched at its position. -/
theorem scalar_option_spec_instance :
    parseArg readShortOptPre readLongOptPre scalarO outL [verbL] =
        .ok (2, .optionArg 'o' outL (.strVal verbL))
      ∧ parseArg readShortOptPre readLongOptPre scalarO outL [] =
          .error (expectsOneMsg outL)
      ∧ [scalarO].get? 0 = some scalarO :=
  ⟨(scalar_option_spec readShortOptPre readLongOptPre 'o' outL aoutL outL
      verbL [] unixMetaparser unixShouldTest 1 true false [scalarO]
      [scalarO] [['-', '-']] 0).1 (by decide),
   (scalar_option_spec readShortOptPre readLongOptPre 'o' outL aoutL outL
      verbL [] unixMetaparser unixShouldTest 1 true false [scalarO]
      [scalarO] [['-', '-']] 0).2.1 (by decide),
   (scalar_option_spec readShortOptPre readLongOptPre 'o' outL aoutL outL
      verbL [] unixMetaparser unixShouldTest 1 true false [scalarO]
      [scalarO] [['-', '-']] 0).2.2 (by decide) (by decide) (by decide)⟩

/-- Claim C9 is false as stated: in a completed UnixParser parse whose
input contains a token the switch matches, the switch can still end up
false, because an earlier-declared scalar option consumes that token as
its own value.  Here the second token matches the switch, the parse
completes, and the switch value is still false while the scalar slot
received that token. -/
theorem switch_presence_not_sufficient :
    doesStrMatchOption readShortOptPre readLongOptPre 'v' verbL verbL = true
      ∧ verbL ∈ [outL, verbL]
      ∧ parseLoop readShortOptPre readLongOptPre unixMetaparser unixShouldTest
          1 true [scalarO, switchV] [outL, verbL] 0 =
        ParseOut.ok true [.optionArg 'o' outL (.strVal verbL), switchV] := by
  decide

/-- Claim C9 (amended): a Switch never throws; its parseArg on a matching
token sets the value true and consumes exactly the flag token, and on a
non-matching token returns 0 leaving the value unchanged; consequently on
an input none of whose tokens match the switch, any completed parse
leaves the initial (default) value in the slot.  Mere presence of a
matching token somewhere in the input does not guarantee a true value,
since the metaparser or an earlier-declared descriptor may consume that
token first. -/
theorem switch_spec (spre lpre : Str) (sn : Char) (ln tok : Str) (b : Bool)
    (rest : List Str) (mp : Bool → Str → Bool × Bool)
    (should : Bool → Descriptor → Bool) (fuel : Nat) (mode m : Bool)
    (args args1 : List Descriptor) (argv : List Str) (k : Nat) :
    (doesStrMatchOption spre lpre sn ln tok = true →
        parseArg spre lpre (.optionArg sn ln (.boolVal b)) tok rest =
          .ok (1, .optionArg sn ln (.boolVal true)))
      ∧ (doesStrMatchOption spre lpre sn ln tok = false →
          parseArg spre lpre (.optionArg sn ln (.boolVal b)) tok rest =
            .ok (0, .optionArg sn ln (.boolVal b)))
      ∧ (∀ e, parseArg spre lpre (.optionArg sn ln (.boolVal b)) tok rest ≠
          .error e)
      ∧ ((∀ u ∈ argv, doesStrMatchOption spre lpre sn ln u = false) →
          args.get? k = some (.optionArg sn ln (.boolVal b)) →
          parseLoop spre lpre mp should fuel mode args argv 0 = .ok m args1 →
          args1.get? k = some (.optionArg sn ln (.boolVal b))) := by
  refine ⟨?_, ?_, ?_, ?_⟩
  · intro h
    simp [parseArg, h]
  · intro h
    simp [parseArg, h]
  · intro e h
    by_cases hm2 : doesStrMatchOption spre lpre sn ln tok = true
    · simp [parseArg, hm2] at h
    · simp [parseArg, hm2] at h
  · intro hno hk hp
    exact parseLoop_preserves spre lpre mp should argv
      (.optionArg sn ln (.boolVal b))
      (fun u hu rest2 =>
        parseArg_of_not_match spre lpre sn ln (.boolVal b) u rest2 (hno u hu))
      fuel mode args 0 k hk m args1 hp

/-- Witness for switch_spec, instantiated at the verbose switch of
demo.cpp: a matching token sets it true consuming one token, a
non-matching token leaves it unchanged, and a completed parse of an input
without a matching token leaves the descriptor untouched at its
position. -/
theorem switch_spec_instance :
    parseArg readShortOptPre readLongOptPre switchV verbL [] =
        .ok (1, .optionArg 'v' verbL (.boolVal true))
      ∧ parseArg readShortOptPre readLongOptPre switchV outL [] =
          .ok (0, switchV)
      ∧ [switchV].get? 0 = some switchV :=
  ⟨(switch_spec readShortOptPre readLongOptPre 'v' verbL verbL false []
      unixMetaparser unixShouldTest 1 true false [switchV] [switchV]
      [['-', '-']] 0).1 (by decide),
   (switch_spec readShortOptPre readLongOptPre 'v' verbL outL false []
      unixMetaparser unixShouldTest 1 true false [switchV] [switchV]
      [['-', '-']] 0).2.1 (by decide),
   (switch_spec readShortOptPre readLongOptPre 'v' verbL verbL false []
      unixMetaparser unixShouldTest 1 true false [switchV] [switchV]
      [['-', '-']] 0).2.2.2 (by decide) (by decide) (by decide)⟩

end Targ
